import Mathlib

/-!
A verification development for the clox bytecode compiler and virtual
machine.  Each definition below is a shallow embedding of one function or
data structure of the C source (src/src/vm.c, src/src/memory.c,
src/src/chunk.c, src/src/compiler.c and the scanner); theorems at the end
settle the spec's claims against those definitions.

Modelling conventions:
* C machine integers become `Nat` (with `% 256` where a `uint8_t` read
  matters); IEEE doubles become `Float` (no claim inspects a double's bits).
* The VM value stack is a `List Value` whose head is the top of stack
  (`vm.stack_top[-1]`); `vm.stack_top`, a pointer one past the top, is the
  list's length counted from the stack base.
* Heap pointers that only serve as identities (native functions, upvalue
  cells) become `Nat` tags; `Obj` keeps only the fields the claims read.
* Fallible C paths (NULL returns, runtime errors) become `Option` results
  or an explicit `error` field recording the `runtimeError` message.
-/

/-- Heap object: a function's claim-relevant fields (`ObjFunction` in
object.h): arity, upvalue count and the chunk's code bytes.  The constant
pool is not carried: no claim reads it. -/
structure ObjFunction where
  arity : Nat
  upvalue_count : Nat
  code : List Nat
deriving Repr, DecidableEq

/-- Heap object: a closure (`ObjClosure`); the captured-upvalue array is
identified by the tags of its cells. -/
structure ObjClosure where
  function : ObjFunction
  upvalues : List Nat
deriving Repr, DecidableEq

/-- The heap-object variants of object.h that the current vm.c allocates
(`OBJ_STRING`, `OBJ_FUNCTION`, `OBJ_CLOSURE`, `OBJ_NATIVE`, `OBJ_UPVALUE`).
A string carries its bytes; a native or upvalue carries an identity tag. -/
inductive Obj where
  | ostring (chars : List Char)
  | ofunction (f : ObjFunction)
  | oclosure (c : ObjClosure)
  | onative (id : Nat)
  | oupvalue (id : Nat)
deriving Repr, DecidableEq

/-- The tagged union `Value` of value.h: `VAL_NIL`, `VAL_BOOL`,
`VAL_NUMBER`, `VAL_OBJ`. -/
inductive Value where
  | nil
  | bool (b : Bool)
  | number (x : Float)
  | obj (o : Obj)
deriving Repr

/-- `IS_STRING` of object.h: an obj value whose object is a string. -/
def isStringV : Value → Bool
  | Value.obj (Obj.ostring _) => true
  | _ => false

/-- `peek(distance)` of vm.c: reads `vm.stack_top[-1 - distance]`.  The VM
never peeks past the stack base; reading there is modelled as `nil`. -/
def peek (stack : List Value) (distance : Nat) : Value :=
  stack.getD distance Value.nil

/-- `isFalsey` of vm.c (lines 178-181):
`IS_NIL(value) || (IS_BOOL(value) && !AS_BOOL(value))`. -/
def isFalsey : Value → Bool
  | Value.nil => true
  | Value.bool b => !b
  | _ => false

/-- `READ_SHORT()` of vm.c (line 203): advance the instruction pointer by
two and combine the two bytes just read, high byte first:
`(uint16_t)((frame->ip[-2] << 8) | frame->ip[-1])`.  Returns (new ip,
offset); code bytes are `uint8_t`, hence the `% 256`. -/
def readShort (code : List Nat) (ip : Nat) : Nat × Nat :=
  (ip + 2, (code.getD ip 0 % 256) * 256 + code.getD (ip + 1) 0 % 256)

/-- The `OP_JUMP_IF_FALSE` case of `run` (vm.c lines 346-351): read the
16-bit offset, and add it to the instruction pointer when the top of stack
peeks falsey.  Nothing is popped. -/
def execJumpIfFalse (code : List Nat) (ip : Nat) (stack : List Value) :
    Nat × List Value :=
  let r := readShort code ip
  if isFalsey (peek stack 0) then (r.1 + r.2, stack) else (r.1, stack)

/-- `concatenate` of vm.c (lines 183-196).  The two operand strings are
its arguments (`b` popped first, then `a`); the result is the byte content
handed to `takeString(chars, length)`.  The source's statement
`chars[length = '\0'];` assigns `0` to `length` (and discards the read of
`chars[0]`), so `takeString` receives length `0`; the `let` rebinding of
`length` mirrors that assignment. -/
def concatenate (a b : List Char) : List Char :=
  let length := a.length + b.length
  let chars := a ++ b
  let length := 0
  chars.take length

/-- `reallocate` of memory.c (src/src/memory.c lines 9-26), abstracted
over the heap: the result is `none` when the C function frees its pointer
and returns `NULL`, and `some new_size` when it returns a (never-NULL)
block of `new_size` usable bytes from `realloc`.  The branch structure is
the source's: `new_size == 0` frees; `new_size <= old_size` also frees and
returns NULL; only `new_size > old_size` reaches `realloc`. -/
def reallocate (old_size new_size : Nat) : Option Nat :=
  if new_size = 0 then none
  else if new_size ≤ old_size then none
  else some new_size

/-- Claim C8: executing JUMP_IF_FALSE leaves the value stack exactly as it
was (it peeks, popping nothing), and advances the instruction pointer past
its two operand bytes plus the 16-bit offset exactly when the top-of-stack
value is falsey; the only falsey values are nil and boolean false (every
number including 0, every string including the empty string, and every
other object is truthy). -/
theorem jumpIfFalse_spec (code : List Nat) (ip : Nat) (stack : List Value) :
    (execJumpIfFalse code ip stack).2 = stack
    ∧ (execJumpIfFalse code ip stack).1 =
        (if isFalsey (peek stack 0) = true
          then ip + 2 + (readShort code ip).2 else ip + 2)
    ∧ (∀ v : Value, isFalsey v = true ↔ v = Value.nil ∨ v = Value.bool false) := by
  refine ⟨?_, ?_, ?_⟩
  · by_cases h : isFalsey (peek stack 0) = true <;>
      simp [execJumpIfFalse, h]
  · by_cases h : isFalsey (peek stack 0) = true <;>
      simp [execJumpIfFalse, readShort, h]
  · intro v
    cases v with
    | nil => simp [isFalsey]
    | bool b => cases b <;> simp [isFalsey]
    | number x => simp [isFalsey]
    | obj o => simp [isFalsey]

/-- Claim C1, the code as written, at the failing input: concatenating the
one-byte strings "a" and "b" hands `takeString` length 0, so the pushed
string's bytes are empty rather than "ab" — `chars[length = '\0']` zeroes
`length` instead of writing a terminator at index `length`. -/
theorem concatenate_bug :
    concatenate [ 'a' ] [ 'b' ] = []
    ∧ (concatenate [ 'a' ] [ 'b' ]).length ≠
        ([ 'a' ] : List Char).length + ([ 'b' ] : List Char).length := by
  constructor
  · rfl
  · decide

/-- Claim C2, the code as written, at the failing input: a shrink request
`reallocate(ptr, 8, 4)` has `new_size = 4 > 0`, yet the function frees the
pointer and returns NULL instead of performing a real reallocation. -/
theorem reallocate_bug :
    reallocate 8 4 = none ∧ (4 : Nat) ≠ 0 := by
  constructor
  · rfl
  · decide

/-!  The scanner (scanner.c).  The source buffer is a NUL-terminated C
string; `current` and `start` are indices into it.  Reading at or past the
buffer's end yields the terminator `'\0'`, which is what `isAtEnd` tests. -/

/-- The scanner state of scanner.c: `start` and `current` point into the
source, `line` is the current 1-based line. -/
structure Scanner where
  source : List Char
  start : Nat
  current : Nat
  line : Nat
deriving Repr, DecidableEq

/-- The NUL terminator of the C source buffer. -/
def nulChar : Char := Char.ofNat 0

/-- `peek()` of scanner.c: `*scanner.current`, the terminator once past
the end of the buffer. -/
def Scanner.peek (s : Scanner) : Char :=
  s.source.getD s.current nulChar

/-- `isAtEnd()` of scanner.c: `*scanner.current == '\0'`. -/
def Scanner.isAtEnd (s : Scanner) : Bool :=
  s.peek = nulChar

/-- One iteration of the loop in `string()` of scanner.c (lines 238-242):
`if (peek() == '\n') { scanner.line++; }` — and nothing else: the source
never advances `scanner.current` inside this loop. -/
def stringStep (s : Scanner) : Scanner :=
  if s.peek = '\n' then { s with line := s.line + 1 } else s

/-- The loop of `string()` (scanner.c lines 238-242), run on fuel:
`while (peek() != '"' && !isAtEnd()) { body }`.  `none` means the fuel ran
out with the loop still running. -/
def stringLoop : Nat → Scanner → Option Scanner
  | 0, _ => none
  | fuel + 1, s =>
    if s.peek ≠ '"' ∧ s.isAtEnd = false then stringLoop fuel (stringStep s)
    else some s

/-- `string()` of scanner.c (lines 236-251) on fuel: run the scan loop;
at end-of-buffer report "Unterminated string.", otherwise consume the
closing quote and produce a TOKEN_STRING (here: the lexeme bounds and
line that `makeToken` would record).  `none` when the loop never exits. -/
def stringScan (fuel : Nat) (s : Scanner) : Option (Nat × Nat × Nat × Bool) :=
  match stringLoop fuel s with
  | none => none
  | some s1 =>
    if s1.isAtEnd then some (s1.start, s1.current, s1.line, false)
    else
      let s2 := { s1 with current := s1.current + 1 }
      some (s2.start, s2.current, s2.line, true)

/-- The scanner state immediately after `scanToken` on the 3-character
source `"a"` has consumed the opening quote and entered `string()`:
`start = 0`, `current = 1` (at the `a`), `line = 1`. -/
def stuckScanner : Scanner :=
  { source := [ '"', 'a', '"' ], start := 0, current := 1, line := 1 }

/-- Claim C3, the code as written, at the failing input: on the finite
source `"a"` (an ordinary one-character string literal), the scan loop of
`string()` never terminates — its body never advances `scanner.current` —
so `scanToken` never returns a string token.  Stated over all fuel
bounds: no number of iterations exits the loop. -/
theorem scanToken_string_diverges :
    ∀ fuel : Nat, stringLoop fuel stuckScanner = none
      ∧ stringScan fuel stuckScanner = none := by
  have hpeek : stuckScanner.peek = 'a' := by decide
  have hstep : stringStep stuckScanner = stuckScanner := by decide
  have hloop : ∀ fuel : Nat, stringLoop fuel stuckScanner = none := by
    intro fuel
    induction fuel with
    | zero => rfl
    | succ n ih =>
      have hcond : stuckScanner.peek ≠ '"' ∧ stuckScanner.isAtEnd = false := by
        decide
      simp only [stringLoop, if_pos hcond, hstep]
      exact ih
  intro fuel
  refine ⟨hloop fuel, ?_⟩
  simp [stringScan, hloop fuel]

/-!  The chunk (chunk.c / chunk.h).  `code` is a `uint8_t` array and
`lines` an `int` array, both `capacity` elements long in intent; the model
additionally records how many BYTES each growth of the two arrays actually
asked `reallocate` for, because `writeChunk` grows both arrays with
`GROW_ARRAY(uint8_t, ...)` — element size 1 — while `lines` stores 4-byte
`int` elements (`int* lines` in chunk.h, freed as `FREE_ARRAY(int, ...)`
by `freeChunk`). -/

/-- `sizeof(int)` on the target platform: the spec's `i32` line array. -/
def sizeofInt : Nat := 4

/-- The Chunk of chunk.h plus the byte sizes its two arrays were last
reallocated to. -/
structure Chunk where
  count : Nat
  capacity : Nat
  code : List Nat
  lines : List Int
  code_alloc_bytes : Nat
  lines_alloc_bytes : Nat
deriving Repr, DecidableEq

/-- `initChunk` of chunk.c: zero counts, NULL arrays. -/
def initChunk : Chunk :=
  { count := 0, capacity := 0, code := [], lines := [],
    code_alloc_bytes := 0, lines_alloc_bytes := 0 }

/-- `GROW_CAPACITY` of memory.h: `capacity < 8 ? 8 : capacity * 2`. -/
def GROW_CAPACITY (capacity : Nat) : Nat :=
  if capacity < 8 then 8 else capacity * 2

/-- `writeChunk` of chunk.c (lines 17-31).  When full, grow: the source
calls `GROW_ARRAY(uint8_t, chunk->code, ...)` and
`GROW_ARRAY(uint8_t, chunk->lines, ...)`, so each array is reallocated to
`capacity * sizeof(uint8_t)` = `capacity` bytes.  Then store
`code[count] = byte` (1 byte at offset `count`) and `lines[count] = line`
(`sizeof(int)` bytes at byte offset `count * sizeof(int)`), and bump
`count`.  The returned Bool records whether the `lines` store fell inside
the bytes allocated for `lines`. -/
def writeChunk (chunk : Chunk) (byte : Nat) (line : Int) : Chunk × Bool :=
  let c :=
    if chunk.capacity < chunk.count + 1 then
      let old_capacity := chunk.capacity
      let capacity := GROW_CAPACITY old_capacity
      { chunk with
          capacity := capacity,
          code_alloc_bytes := capacity * 1,
          lines_alloc_bytes := capacity * 1 }
    else chunk
  let lines_store_ok := (c.count + 1) * sizeofInt ≤ c.lines_alloc_bytes
  ({ c with
      code := c.code ++ [byte % 256],
      lines := c.lines ++ [line],
      count := c.count + 1 },
    lines_store_ok)

/-- Claim C4, the code as written, at the failing input: on a fresh chunk
the first growth sets `capacity = 8` and reallocates `lines` to 8 BYTES
(`GROW_ARRAY(uint8_t, chunk->lines, ...)`), room for two 4-byte ints; the
third `writeChunk` stores `lines[2]`, bytes 8..11 of an 8-byte block —
out of bounds.  (The parallel code/lines bookkeeping itself is intact:
both lists stay `count` long.) -/
theorem writeChunk_lines_oob :
    (writeChunk initChunk 1 1).2 = true
    ∧ (writeChunk (writeChunk initChunk 1 1).1 2 1).2 = true
    ∧ (writeChunk (writeChunk (writeChunk initChunk 1 1).1 2 1).1 3 1).2 =
        false
    ∧ (writeChunk (writeChunk (writeChunk initChunk 1 1).1 2 1).1
        3 1).1.count * sizeofInt = 12
    ∧ (writeChunk (writeChunk (writeChunk initChunk 1 1).1 2 1).1
        3 1).1.lines_alloc_bytes = 8
    ∧ (writeChunk (writeChunk (writeChunk initChunk 1 1).1 2 1).1
        3 1).1.code.length =
      (writeChunk (writeChunk (writeChunk initChunk 1 1).1 2 1).1
        3 1).1.count
    ∧ (writeChunk (writeChunk (writeChunk initChunk 1 1).1 2 1).1
        3 1).1.lines.length =
      (writeChunk (writeChunk (writeChunk initChunk 1 1).1 2 1).1
        3 1).1.count := by
  decide

/-!  The VM (vm.c / vm.h).  `FRAMES_MAX = 64`; `frame_count` is the length
of the `frames` list.  `runtimeError` prints to stderr — modelled by the
`error` field holding the formatted message — and then calls `resetStack`,
which clears the stack, the frames and the open-upvalue list. -/

/-- `FRAMES_MAX` of vm.h. -/
def FRAMES_MAX : Nat := 64

/-- A `CallFrame` of vm.h: the closure being executed, the instruction
pointer as an offset into its chunk's code, and the frame's base as an
index into the value stack (`slots`). -/
structure CallFrame where
  closure : ObjClosure
  ip : Nat
  slots : Nat
deriving Repr, DecidableEq

/-- The table of table.h, as the map it implements.

Modelled from the spec: the hash-table primitives (table.c) are not among
the repository's files; §1 specifies them as `get/set/delete/iterate` over
(interned-string key, value) pairs with the probing scheme left free, so
the table is its association list.  `tableSet` answers whether the key was
new, which is how vm.c consumes it. -/
abbrev Table := List (String × Value)

/-- Modelled from the spec: `tableGet` — look a key up. -/
def tableGet : Table → String → Option Value
  | [], _ => none
  | (k, v) :: rest, key => if k = key then some v else tableGet rest key

/-- Modelled from the spec: `tableSet` — bind a key, answering `true`
exactly when the key was not yet present. -/
def tableSet : Table → String → Value → Bool × Table
  | [], key, value => (true, [(key, value)])
  | (k, v) :: rest, key, value =>
    if k = key then (false, (key, value) :: rest)
    else
      let r := tableSet rest key value
      (r.1, (k, v) :: r.2)

/-- Modelled from the spec: `tableDelete` — remove a key's entry. -/
def tableDelete : Table → String → Table
  | [], _ => []
  | (k, v) :: rest, key =>
    if k = key then rest else (k, v) :: tableDelete rest key

/-- The VM state of vm.h, restricted to the fields the claims observe:
the value stack (head = top), the call frames, the globals table, the
open-upvalue list (as stack locations, see `captureUpvalue`), and the
last `runtimeError` message. -/
structure VMState where
  stack : List Value
  frames : List CallFrame
  globals : Table
  open_upvalues : List Nat
  error : Option String

/-- `resetStack` of vm.c (lines 24-30): empty the stack, drop all frames,
clear the open-upvalue list. -/
def resetStack (v : VMState) : VMState :=
  { v with stack := [], frames := [], open_upvalues := [] }

/-- `runtimeError` of vm.c (lines 32-53): report the formatted message
(and the stack trace) on stderr, then reset the stack. -/
def runtimeError (msg : String) (v : VMState) : VMState :=
  resetStack { v with error := some msg }

/-- `push` of vm.c. -/
def pushV (value : Value) (v : VMState) : VMState :=
  { v with stack := value :: v.stack }

/-- `pop` of vm.c: the top value and the shrunk state.  (The VM only pops
what it pushed; popping an empty stack is modelled as `nil`.) -/
def popV (v : VMState) : Value × VMState :=
  (v.stack.headD Value.nil, { v with stack := v.stack.tail })

/-- `call` of vm.c (lines 101-119): arity check, then frame-count check
against `FRAMES_MAX`, then push a frame whose `ip` starts at the chunk's
code and whose base is `stack_top - arg_count - 1`. -/
def call (closure : ObjClosure) (arg_count : Nat) (v : VMState) :
    Bool × VMState :=
  if arg_count ≠ closure.function.arity then
    (false,
      runtimeError
        ("Expected " ++ toString closure.function.arity ++
          " arguments but got " ++ toString arg_count ++ ".") v)
  else if v.frames.length = FRAMES_MAX then
    (false, runtimeError "Stack overflow." v)
  else
    (true,
      { v with
          frames := v.frames ++
            [{ closure := closure, ip := 0,
               slots := v.stack.length - arg_count - 1 }] })

/-- The `OP_SET_GLOBAL` case of `run` (vm.c lines 279-286): set the name
to `peek(0)`; if `tableSet` reports a NEW key, the global was undefined —
delete the just-made entry again and raise
`Undefined variable '<name>'.` -/
def execSetGlobal (name : String) (v : VMState) : VMState :=
  let r := tableSet v.globals name (peek v.stack 0)
  if r.1 then
    runtimeError ("Undefined variable '" ++ name ++ "'.")
      { v with globals := tableDelete r.2 name }
  else
    { v with globals := r.2 }

/-- The `OP_DEFINE_GLOBAL` case of `run` (vm.c lines 271-275): bind the
name to `peek(0)`, then pop. -/
def execDefineGlobal (name : String) (v : VMState) : VMState :=
  let r := tableSet v.globals name (peek v.stack 0)
  { v with globals := r.2, stack := v.stack.tail }

/-- The `OP_GET_GLOBAL` case of `run` (vm.c lines 262-270): look the name
up; push its value, or raise `Undefined variable '<name>'.` -/
def execGetGlobal (name : String) (v : VMState) : VMState :=
  match tableGet v.globals name with
  | none => runtimeError ("Undefined variable '" ++ name ++ "'.") v
  | some value => pushV value v

/-- The `OP_NIL` case of `run` (vm.c lines 245-247): push nil. -/
def execNil (v : VMState) : VMState :=
  pushV Value.nil v

/-- Looking up the key just set finds the new value. -/
theorem tableGet_tableSet_self (t : Table) (k : String) (val : Value) :
    tableGet (tableSet t k val).2 k = some val := by
  induction t with
  | nil => simp [tableSet, tableGet]
  | cons p rest ih =>
    by_cases h : p.1 = k
    · simp [tableSet, tableGet, h]
    · simp [tableSet, tableGet, h, ih]

/-- Setting a key leaves every other key's binding alone. -/
theorem tableGet_tableSet_other (t : Table) (k : String) (val : Value)
    (k' : String) (h : k' ≠ k) :
    tableGet (tableSet t k val).2 k' = tableGet t k' := by
  induction t with
  | nil => simp [tableSet, tableGet, Ne.symm h]
  | cons p rest ih =>
    obtain ⟨pk, pv⟩ := p
    by_cases hp : pk = k
    · simp [tableSet, tableGet, hp, Ne.symm h]
    · by_cases hp' : pk = k'
      · simp [tableSet, tableGet, hp, hp', h]
      · simp [tableSet, tableGet, hp, hp', ih]

/-- Setting an absent key appends its entry and answers `true`. -/
theorem tableSet_new (t : Table) (k : String) (val : Value)
    (h : tableGet t k = none) :
    tableSet t k val = (true, t ++ [(k, val)]) := by
  induction t with
  | nil => simp [tableSet]
  | cons p rest ih =>
    obtain ⟨pk, pv⟩ := p
    by_cases hp : pk = k
    · simp [tableGet, hp] at h
    · simp [tableGet, hp] at h
      simp [tableSet, hp, ih h]

/-- Setting a present key answers `false`. -/
theorem tableSet_found (t : Table) (k : String) (val w : Value)
    (h : tableGet t k = some w) :
    (tableSet t k val).1 = false := by
  induction t with
  | nil => simp [tableGet] at h
  | cons p rest ih =>
    obtain ⟨pk, pv⟩ := p
    by_cases hp : pk = k
    · simp [tableSet, hp]
    · simp [tableGet, hp] at h
      simp [tableSet, hp, ih h]

/-- Deleting a key no earlier entry holds strips exactly the appended
entry. -/
theorem tableDelete_append_self (t : Table) (k : String) (val : Value)
    (h : tableGet t k = none) :
    tableDelete (t ++ [(k, val)]) k = t := by
  induction t with
  | nil => simp [tableDelete]
  | cons p rest ih =>
    obtain ⟨pk, pv⟩ := p
    by_cases hp : pk = k
    · simp [tableGet, hp] at h
    · simp [tableGet, hp] at h
      simp [tableDelete, hp, ih h]

/-- Claim C5: for a CALL of a closure with argument count `argc`: when
`argc` differs from the closure's arity the VM raises
`Expected N arguments but got M.` (N the arity, M = argc) and pushes no
frame; when `argc` matches but `FRAMES_MAX = 64` frames are active it
raises `Stack overflow.` and pushes no frame; otherwise exactly one frame
is pushed, based at `stack_top - argc - 1`, and no error is raised. -/
theorem call_spec (closure : ObjClosure) (arg_count : Nat) (v : VMState) :
    (arg_count ≠ closure.function.arity →
      (call closure arg_count v).1 = false
      ∧ (call closure arg_count v).2.error =
          some ("Expected " ++ toString closure.function.arity ++
            " arguments but got " ++ toString arg_count ++ ".")
      ∧ (call closure arg_count v).2.frames.length ≤ v.frames.length)
    ∧ (arg_count = closure.function.arity → v.frames.length = FRAMES_MAX →
      (call closure arg_count v).1 = false
      ∧ (call closure arg_count v).2.error = some "Stack overflow."
      ∧ (call closure arg_count v).2.frames.length ≤ v.frames.length)
    ∧ (arg_count = closure.function.arity → v.frames.length < FRAMES_MAX →
      (call closure arg_count v).1 = true
      ∧ (call closure arg_count v).2.frames =
          v.frames ++
            [{ closure := closure, ip := 0,
               slots := v.stack.length - arg_count - 1 }]
      ∧ (call closure arg_count v).2.error = v.error) := by
  refine ⟨?_, ?_, ?_⟩
  · intro h
    simp [call, h, runtimeError, resetStack]
  · intro h hmax
    simp [call, h, hmax, runtimeError, resetStack]
  · intro h hlt
    have hne : v.frames.length ≠ FRAMES_MAX := Nat.ne_of_lt hlt
    simp [call, h, hne]

/-- A closure of arity 0 over an empty chunk, for witnesses. -/
def sampleClosure : ObjClosure :=
  { function := { arity := 0, upvalue_count := 0, code := [] },
    upvalues := [] }

/-- A VM state with two stack slots, no frames and no globals, for
witnesses. -/
def sampleVM : VMState :=
  { stack := [Value.bool false, Value.nil], frames := [], globals := [],
    open_upvalues := [], error := none }

/-- Witness for claim C5 at the spec's own example `fun f(){} f(1);`:
calling an arity-0 closure with one argument fails with
`Expected 0 arguments but got 1.` and pushes no frame. -/
theorem call_spec_witness :
    (1 ≠ sampleClosure.function.arity)
    ∧ (call sampleClosure 1 sampleVM).1 = false
    ∧ (call sampleClosure 1 sampleVM).2.error =
        some ("Expected " ++ toString sampleClosure.function.arity ++
          " arguments but got " ++ toString 1 ++ ".")
    ∧ (call sampleClosure 1 sampleVM).2.frames.length ≤
        sampleVM.frames.length :=
  ⟨by decide,
   ((call_spec sampleClosure 1 sampleVM).1 (by decide)).1,
   ((call_spec sampleClosure 1 sampleVM).1 (by decide)).2.1,
   ((call_spec sampleClosure 1 sampleVM).1 (by decide)).2.2⟩

/-- Claim C6: SET_GLOBAL on a name not bound in the globals table raises
`Undefined variable '<name>'.` and leaves the globals table as it was (the
assignment does not create the global); on a bound name it updates that
binding, touches no other, and raises no error. -/
theorem setGlobal_spec (name : String) (v : VMState) :
    (tableGet v.globals name = none →
      (execSetGlobal name v).error =
        some ("Undefined variable '" ++ name ++ "'.")
      ∧ (execSetGlobal name v).globals = v.globals)
    ∧ (∀ w : Value, tableGet v.globals name = some w →
      (execSetGlobal name v).error = v.error
      ∧ tableGet (execSetGlobal name v).globals name =
          some (peek v.stack 0)
      ∧ ∀ k : String, k ≠ name →
          tableGet (execSetGlobal name v).globals k =
            tableGet v.globals k) := by
  constructor
  · intro h
    have hset := tableSet_new v.globals name (peek v.stack 0) h
    have hdel :=
      tableDelete_append_self v.globals name (peek v.stack 0) h
    simp [execSetGlobal, hset, hdel, runtimeError, resetStack]
  · intro w h
    have hfound := tableSet_found v.globals name (peek v.stack 0) w h
    refine ⟨?_, ?_, ?_⟩
    · simp [execSetGlobal, hfound]
    · simp [execSetGlobal, hfound, tableGet_tableSet_self]
    · intro k hk
      simp [execSetGlobal, hfound,
        tableGet_tableSet_other v.globals name (peek v.stack 0) k hk]

/-- Witness for claim C6: assigning the unbound global `x` in a VM with
empty globals raises `Undefined variable 'x'.` and leaves the globals
table unchanged. -/
theorem setGlobal_spec_witness :
    tableGet sampleVM.globals "x" = none
    ∧ (execSetGlobal "x" sampleVM).error =
        some ("Undefined variable '" ++ "x" ++ "'.")
    ∧ (execSetGlobal "x" sampleVM).globals = sampleVM.globals :=
  ⟨rfl,
   ((setGlobal_spec "x" sampleVM).1 rfl).1,
   ((setGlobal_spec "x" sampleVM).1 rfl).2⟩

/-!  Open upvalues (vm.c).  The VM's open-upvalue list is modelled by the
stack locations of its cells, head = `vm.open_upvalues`; the C pointer
comparisons `>`, `==`, `>=` on `Value*` locations become the same
comparisons on stack indices. -/

/-- `captureUpvalue` of vm.c (lines 143-166): walk the list past entries
whose location is above `loc`; an entry exactly at `loc` is returned
as-is (the list is unchanged); otherwise a fresh open upvalue is linked
in right there. -/
def captureUpvalue : List Nat → Nat → List Nat
  | [], loc => [loc]
  | u :: rest, loc =>
    if u > loc then u :: captureUpvalue rest loc
    else if u = loc then u :: rest
    else loc :: u :: rest

/-- `closeUpvalues(last)` of vm.c (lines 168-176): while the head's
location is at or above `last`, close it and unlink it from the list. -/
def closeUpvalues : List Nat → Nat → List Nat
  | [], _ => []
  | u :: rest, last =>
    if u ≥ last then closeUpvalues rest last else u :: rest

/-- Membership after a capture: exactly the old entries plus `loc`. -/
theorem mem_captureUpvalue (l : List Nat) (loc x : Nat) :
    x ∈ captureUpvalue l loc ↔ x ∈ l ∨ x = loc := by
  induction l with
  | nil => simp [captureUpvalue]
  | cons u rest ih =>
    by_cases h1 : u > loc
    · simp [captureUpvalue, h1, ih]
      tauto
    · by_cases h2 : u = loc
      · subst h2
        simp [captureUpvalue, h1]
        tauto
      · simp [captureUpvalue, h1, h2]
        tauto

/-- A capture into a strictly descending list keeps it strictly
descending. -/
theorem captureUpvalue_pairwise (l : List Nat) (loc : Nat)
    (h : l.Pairwise (· > ·)) :
    (captureUpvalue l loc).Pairwise (· > ·) := by
  induction l with
  | nil => simp [captureUpvalue]
  | cons u rest ih =>
    rw [List.pairwise_cons] at h
    obtain ⟨hu, hrest⟩ := h
    by_cases h1 : u > loc
    · simp only [captureUpvalue, if_pos h1]
      rw [List.pairwise_cons]
      refine ⟨?_, ih hrest⟩
      intro x hx
      rcases (mem_captureUpvalue rest loc x).1 hx with h' | h'
      · exact hu x h'
      · subst h'
        exact h1
    · by_cases h2 : u = loc
      · simp only [captureUpvalue, if_neg h1, if_pos h2]
        exact List.pairwise_cons.2 ⟨hu, hrest⟩
      · simp only [captureUpvalue, if_neg h1, if_neg h2]
        rw [List.pairwise_cons]
        refine ⟨?_, List.pairwise_cons.2 ⟨hu, hrest⟩⟩
        intro x hx
        rcases List.mem_cons.1 hx with h' | h'
        · subst h'
          omega
        · have := hu x h'
          omega

/-- A capture at a location already on a strictly descending list returns
the existing upvalue: the list is unchanged. -/
theorem captureUpvalue_of_mem (l : List Nat) (loc : Nat)
    (h : l.Pairwise (· > ·)) (hm : loc ∈ l) :
    captureUpvalue l loc = l := by
  induction l with
  | nil => simp at hm
  | cons u rest ih =>
    rw [List.pairwise_cons] at h
    obtain ⟨hu, hrest⟩ := h
    rcases List.mem_cons.1 hm with h' | h'
    · subst h'
      simp [captureUpvalue]
    · have h1 : u > loc := hu loc h'
      simp [captureUpvalue, h1, ih hrest h']

/-- `closeUpvalues` only unlinks entries from the front: what remains is
the original list minus an initial run of closed entries. -/
theorem closeUpvalues_suffix (l : List Nat) (last : Nat) :
    ∃ closed, closed ++ closeUpvalues l last = l := by
  induction l with
  | nil => exact ⟨[], rfl⟩
  | cons u rest ih =>
    by_cases h : u ≥ last
    · obtain ⟨c, hc⟩ := ih
      exact ⟨u :: c, by simp [closeUpvalues, h, hc]⟩
    · exact ⟨[], by simp [closeUpvalues, h]⟩

/-- Claim C7: the open-upvalue list stays strictly descending by location
and holds each stack slot at most once: `captureUpvalue` returns the
existing upvalue when one is already open for the slot (leaving the list
unchanged) and otherwise inserts the new one preserving the strictly
descending order (so the list stays duplicate-free), and `closeUpvalues`
only removes an initial run of the list, preserving the order of what
remains. -/
theorem openUpvalues_spec (l : List Nat) (loc last : Nat)
    (h : l.Pairwise (· > ·)) :
    (captureUpvalue l loc).Pairwise (· > ·)
    ∧ loc ∈ captureUpvalue l loc
    ∧ (captureUpvalue l loc).Nodup
    ∧ (loc ∈ l → captureUpvalue l loc = l)
    ∧ (∃ closed, closed ++ closeUpvalues l last = l)
    ∧ (closeUpvalues l last).Pairwise (· > ·) := by
  have hcap := captureUpvalue_pairwise l loc h
  refine ⟨hcap, ?_, ?_, ?_, closeUpvalues_suffix l last, ?_⟩
  · exact (mem_captureUpvalue l loc loc).2 (Or.inr rfl)
  · exact hcap.imp (fun hab => Nat.ne_of_gt hab)
  · exact captureUpvalue_of_mem l loc h
  · obtain ⟨c, hc⟩ := closeUpvalues_suffix l last
    have hsub : List.Sublist (closeUpvalues l last) l := by
      conv_rhs => rw [← hc]
      exact List.sublist_append_right c _
    exact h.sublist hsub

/-- Witness for claim C7 on the open list with locations 5, 3, 1:
capturing slot 4 keeps the list descending and adds 4; closing at 3
removes only a leading run. -/
theorem openUpvalues_spec_witness :
    ([5, 3, 1] : List Nat).Pairwise (· > ·)
    ∧ (captureUpvalue [5, 3, 1] 4).Pairwise (· > ·)
    ∧ 4 ∈ captureUpvalue [5, 3, 1] 4
    ∧ (∃ closed, closed ++ closeUpvalues [5, 3, 1] 3 = [5, 3, 1]) :=
  ⟨by decide,
   (openUpvalues_spec [5, 3, 1] 4 3 (by decide)).1,
   (openUpvalues_spec [5, 3, 1] 4 3 (by decide)).2.1,
   (openUpvalues_spec [5, 3, 1] 4 3 (by decide)).2.2.2.2.1⟩

/-!  The compiler (compiler.c), as far as `varDeclaration` reaches.  The
token stream is the scanner's output (assumed free of TOKEN_ERROR, which
`advance` would merely skip while reporting); the chunk under
construction is a list of code units.  The numeric values of the opcode
bytes come from an `OpCode` enum revision that is not among the
repository's files, so code units are kept symbolic: an opcode
constructor or a raw operand byte. -/

/-- The token vocabulary of §6 (scanner.h). -/
inductive TokenType where
  | TOKEN_LEFT_PAREN | TOKEN_RIGHT_PAREN | TOKEN_LEFT_BRACE
  | TOKEN_RIGHT_BRACE | TOKEN_COMMA | TOKEN_DOT | TOKEN_MINUS
  | TOKEN_PLUS | TOKEN_SEMICOLON | TOKEN_SLASH | TOKEN_STAR
  | TOKEN_BANG | TOKEN_BANG_EQUAL | TOKEN_EQUAL | TOKEN_EQUAL_EQUAL
  | TOKEN_GREATER | TOKEN_GREATER_EQUAL | TOKEN_LESS | TOKEN_LESS_EQUAL
  | TOKEN_IDENTIFIER | TOKEN_STRING | TOKEN_NUMBER
  | TOKEN_AND | TOKEN_CLASS | TOKEN_ELSE | TOKEN_FALSE | TOKEN_FOR
  | TOKEN_FUN | TOKEN_IF | TOKEN_NIL | TOKEN_OR | TOKEN_PRINT
  | TOKEN_RETURN | TOKEN_SUPER | TOKEN_THIS | TOKEN_TRUE | TOKEN_VAR
  | TOKEN_WHILE | TOKEN_ERROR | TOKEN_EOF
deriving Repr, DecidableEq

/-- A scanner token: kind, lexeme slice, line. -/
structure Token where
  type : TokenType
  lexeme : String
  line : Nat
deriving Repr, DecidableEq

/-- The opcodes the current compiler.c and vm.c use (chunk.h). -/
inductive OpCode where
  | OP_CONSTANT | OP_NIL | OP_TRUE | OP_FALSE | OP_POP
  | OP_GET_LOCAL | OP_SET_LOCAL
  | OP_GET_GLOBAL | OP_DEFINE_GLOBAL | OP_SET_GLOBAL
  | OP_GET_UPVALUE | OP_SET_UPVALUE
  | OP_EQUAL | OP_GREATER | OP_LESS
  | OP_ADD | OP_SUBTRACT | OP_MULTIPLY | OP_DIVIDE
  | OP_NOT | OP_NEGATE | OP_PRINT
  | OP_JUMP | OP_JUMP_IF_FALSE | OP_LOOP
  | OP_CALL | OP_CLOSURE | OP_CLOSE_UPVALUE | OP_RETURN
deriving Repr, DecidableEq

/-- One byte of an emitted chunk: an opcode, or a raw operand byte. -/
inductive CodeUnit where
  | op (o : OpCode)
  | arg (b : Nat)
deriving Repr, DecidableEq

/-- A `Local` of compiler.c: name, depth (`-1` = declared but not yet
initialized), captured flag. -/
structure Local where
  name : String
  depth : Int
  is_captured : Bool
deriving Repr, DecidableEq

/-- The parser + current-compiler state that `varDeclaration` touches:
the remaining token stream (`parser.current` is its head),
`parser.previous`, the current chunk's code, its constant pool (the
identifier names interned there), the locals, the scope depth and the
error flag. -/
structure CompilerState where
  tokens : List Token
  previous : Token
  chunk_code : List CodeUnit
  constants : List String
  locals : List Local
  scope_depth : Nat
  had_error : Bool
deriving Repr, DecidableEq

/-- `parser.current`: the head of the remaining stream (the stream ends
in TOKEN_EOF, which is never consumed past). -/
def currentTok (st : CompilerState) : Token :=
  st.tokens.headD { type := TokenType.TOKEN_EOF, lexeme := "", line := 0 }

/-- `advance()` of compiler.c: previous := current, step the stream. -/
def advanceP (st : CompilerState) : CompilerState :=
  match st.tokens with
  | [] => st
  | t :: rest => { st with previous := t, tokens := rest }

/-- `consume(type, message)` of compiler.c: advance on a match, else
report the error (`errorAtCurrent`) — modelled by the error flag. -/
def consume (ty : TokenType) (message : String) (st : CompilerState) :
    CompilerState :=
  if (currentTok st).type = ty then advanceP st
  else { st with had_error := true }

/-- `match(type)` of compiler.c (renamed: `match` is a Lean keyword). -/
def matchTok (ty : TokenType) (st : CompilerState) : Bool × CompilerState :=
  if (currentTok st).type = ty then (true, advanceP st) else (false, st)

/-- `emitByte` of compiler.c: append one code unit to the current chunk
(its line bookkeeping is the writeChunk model above). -/
def emitByteC (u : CodeUnit) (st : CompilerState) : CompilerState :=
  { st with chunk_code := st.chunk_code ++ [u] }

/-- `emitBytes` of compiler.c. -/
def emitBytesC (u1 u2 : CodeUnit) (st : CompilerState) : CompilerState :=
  emitByteC u2 (emitByteC u1 st)

/-- `addConstant` of chunk.c on the pool of identifier names: append,
answer the new entry's index. -/
def addConstantC (st : CompilerState) (name : String) :
    Nat × CompilerState :=
  (st.constants.length, { st with constants := st.constants ++ [name] })

/-- `makeConstant` of compiler.c: `addConstant`, erroring ("Too many
constants in one chunk.") past index 255. -/
def makeConstant (name : String) (st : CompilerState) :
    Nat × CompilerState :=
  let r := addConstantC st name
  if r.1 > 255 then (0, { r.2 with had_error := true })
  else (r.1, r.2)

/-- `identifierConstant` of compiler.c: the token's lexeme into the
constant pool. -/
def identifierConstant (name : Token) (st : CompilerState) :
    Nat × CompilerState :=
  makeConstant name.lexeme st

/-- The scan of `declareVariable`'s loop over the locals (head = most
recent): stop at an initialized local of an enclosing scope; a name hit
before that is "Already a variable with this name in this scope." -/
def sameScopeConflict : List Local → Int → String → Bool
  | [], _, _ => false
  | l :: rest, depth, name =>
    if l.depth ≠ -1 ∧ l.depth < depth then false
    else if l.name = name then true
    else sameScopeConflict rest depth name

/-- `addLocal` of compiler.c: bounded to 256 locals ("Too many local
variables in function."); the new local starts at depth −1. -/
def addLocal (name : String) (st : CompilerState) : CompilerState :=
  if st.locals.length = 256 then { st with had_error := true }
  else
    { st with
        locals :=
          { name := name, depth := -1, is_captured := false } :: st.locals }

/-- `declareVariable` of compiler.c: nothing at global scope; otherwise
check for a same-scope duplicate and add the local uninitialized. -/
def declareVariable (st : CompilerState) : CompilerState :=
  if st.scope_depth = 0 then st
  else
    let name := st.previous.lexeme
    let st1 :=
      if sameScopeConflict st.locals (st.scope_depth : Int) name then
        { st with had_error := true }
      else st
    addLocal name st1

/-- `parseVariable` of compiler.c: consume the identifier, declare it;
at local scope the name needs no constant, at global scope intern it. -/
def parseVariable (error_message : String) (st : CompilerState) :
    Nat × CompilerState :=
  let st1 := consume TokenType.TOKEN_IDENTIFIER error_message st
  let st2 := declareVariable st1
  if st2.scope_depth > 0 then (0, st2)
  else identifierConstant st2.previous st2

/-- `markInitialized` of compiler.c. -/
def markInitialized (st : CompilerState) : CompilerState :=
  if st.scope_depth = 0 then st
  else
    match st.locals with
    | [] => st
    | l :: rest =>
      { st with
          locals := { l with depth := (st.scope_depth : Int) } :: rest }

/-- `defineVariable` of compiler.c: a local is just marked initialized;
a global emits `OP_DEFINE_GLOBAL <name index>`. -/
def defineVariable (global : Nat) (st : CompilerState) : CompilerState :=
  if st.scope_depth > 0 then markInitialized st
  else
    emitBytesC (CodeUnit.op OpCode.OP_DEFINE_GLOBAL)
      (CodeUnit.arg global) st

/-- `varDeclaration` of compiler.c (lines 867-879).  `expression` — the
whole Pratt parser — is passed in as a function: this claim only runs the
branch that does not call it. -/
def varDeclaration (expression : CompilerState → CompilerState)
    (st : CompilerState) : CompilerState :=
  let r := parseVariable "Expect variable name." st
  let m := matchTok TokenType.TOKEN_EQUAL r.2
  let st2 :=
    if m.1 then expression m.2
    else emitByteC (CodeUnit.op OpCode.OP_NIL) m.2
  let st3 :=
    consume TokenType.TOKEN_SEMICOLON
      "Expect ';' after variable declaration." st2
  defineVariable r.1 st3

/-- Claim C9: a variable declaration without an initializer (`var x;`)
compiles with OP_NIL emitted in place of the missing initializer,
followed by `OP_DEFINE_GLOBAL <index of the name>`; and at runtime,
defining a global from that pushed nil and then reading it back yields
nil and no error. -/
theorem varDeclaration_spec (expression : CompilerState → CompilerState)
    (st : CompilerState) (tid tsemi : Token) (rest : List Token)
    (v : VMState) (name : String)
    (htok : st.tokens = tid :: tsemi :: rest)
    (hid : tid.type = TokenType.TOKEN_IDENTIFIER)
    (hsemi : tsemi.type = TokenType.TOKEN_SEMICOLON)
    (hscope : st.scope_depth = 0)
    (hpool : st.constants.length ≤ 255) :
    (varDeclaration expression st).chunk_code =
      st.chunk_code ++
        [CodeUnit.op OpCode.OP_NIL,
         CodeUnit.op OpCode.OP_DEFINE_GLOBAL,
         CodeUnit.arg st.constants.length]
    ∧ (execGetGlobal name (execDefineGlobal name (execNil v))).stack.head? =
        some Value.nil
    ∧ (execGetGlobal name (execDefineGlobal name (execNil v))).error =
        v.error := by
  refine ⟨?_, ?_, ?_⟩
  · have hcap : ¬ st.constants.length > 255 := by omega
    simp [varDeclaration, parseVariable, consume, currentTok, advanceP,
      declareVariable, identifierConstant, makeConstant, addConstantC,
      matchTok, defineVariable, emitBytesC, emitByteC, htok, hid, hsemi,
      hscope, hcap]
  · simp [execNil, execDefineGlobal, execGetGlobal, pushV, peek,
      tableGet_tableSet_self]
  · simp [execNil, execDefineGlobal, execGetGlobal, pushV, peek,
      tableGet_tableSet_self]

/-- The token `x` of `var x;`, for witnesses. -/
def tokVarX : Token :=
  { type := TokenType.TOKEN_IDENTIFIER, lexeme := "x", line := 1 }

/-- The token `;` of `var x;`, for witnesses. -/
def tokSemi : Token :=
  { type := TokenType.TOKEN_SEMICOLON, lexeme := ";", line := 1 }

/-- A compiler state about to parse `x;` of `var x;` at global scope,
for witnesses. -/
def sampleCompiler : CompilerState :=
  { tokens := [tokVarX, tokSemi], previous := tokVarX, chunk_code := [],
    constants := [], locals := [], scope_depth := 0, had_error := false }

/-- Witness for claim C9 on `var x;` at global scope: OP_NIL then
OP_DEFINE_GLOBAL 0 is emitted, and the defined global reads back nil. -/
theorem varDeclaration_spec_witness :
    (varDeclaration id sampleCompiler).chunk_code =
      sampleCompiler.chunk_code ++
        [CodeUnit.op OpCode.OP_NIL,
         CodeUnit.op OpCode.OP_DEFINE_GLOBAL,
         CodeUnit.arg sampleCompiler.constants.length]
    ∧ (execGetGlobal "x"
        (execDefineGlobal "x" (execNil sampleVM))).stack.head? =
      some Value.nil :=
  ⟨(varDeclaration_spec id sampleCompiler tokVarX tokSemi [] sampleVM "x"
      rfl rfl rfl rfl (by decide)).1,
   (varDeclaration_spec id sampleCompiler tokVarX tokSemi [] sampleVM "x"
      rfl rfl rfl rfl (by decide)).2.1⟩

/-!  The interpreter entry point (vm.c lines 405-419). -/

/-- The `InterpretResult` of vm.h. -/
inductive InterpretResult where
  | INTERPRET_OK
  | INTERPRET_COMPILE_ERROR
  | INTERPRET_RUNTIME_ERROR
deriving Repr, DecidableEq

/-- `newClosure` of object.c: wrap the function; its upvalue array
starts as `upvalue_count` NULL cells (tag 0 here). -/
def newClosure (function : ObjFunction) : ObjClosure :=
  { function := function, upvalues := List.replicate function.upvalue_count 0 }

/-- `interpret` of vm.c (lines 405-419).  `compile` (compiler.c) and the
dispatch loop `run` are passed in as functions: the claim quantifies over
them.  A failed compile returns INTERPRET_COMPILE_ERROR at once;
otherwise the function is pushed, wrapped in a closure (the push/pop pair
is the GC guard), the closure called with 0 arguments, and `run` takes
over. -/
def interpret (compile : String → Option ObjFunction)
    (runLoop : VMState → InterpretResult × VMState)
    (source : String) (v : VMState) : InterpretResult × VMState :=
  match compile source with
  | none => (InterpretResult.INTERPRET_COMPILE_ERROR, v)
  | some function =>
    let v1 := pushV (Value.obj (Obj.ofunction function)) v
    let closure := newClosure function
    let v2 := (popV v1).2
    let v3 := pushV (Value.obj (Obj.oclosure closure)) v2
    let v4 := (call closure 0 v3).2
    runLoop v4

/-- Claim C10: when compilation fails (`compile` returns null),
`interpret` returns the compile-error outcome without executing any
bytecode — the result does not depend on the dispatch loop at all — and
the value stack, the call frames and the globals table are exactly what
they were before the call. -/
theorem interpret_compile_error
    (compile : String → Option ObjFunction)
    (runLoop : VMState → InterpretResult × VMState)
    (source : String) (v : VMState)
    (h : compile source = none) :
    (interpret compile runLoop source v).1 =
      InterpretResult.INTERPRET_COMPILE_ERROR
    ∧ (interpret compile runLoop source v).2.stack = v.stack
    ∧ (interpret compile runLoop source v).2.frames = v.frames
    ∧ (interpret compile runLoop source v).2.globals = v.globals := by
  simp [interpret, h]

/-- Witness for claim C10: a compiler that rejects its source makes
`interpret` report INTERPRET_COMPILE_ERROR with the sample VM's stack,
frames and globals untouched, whatever the dispatch loop would do. -/
theorem interpret_compile_error_witness :
    ((fun _ : String => (none : Option ObjFunction)) "var ;" = none)
    ∧ (interpret (fun _ => none)
        (fun s => (InterpretResult.INTERPRET_OK, s)) "var ;" sampleVM).1 =
      InterpretResult.INTERPRET_COMPILE_ERROR
    ∧ (interpret (fun _ => none)
        (fun s => (InterpretResult.INTERPRET_OK, s)) "var ;"
          sampleVM).2.globals = sampleVM.globals :=
  ⟨rfl,
   (interpret_compile_error (fun _ => none)
     (fun s => (InterpretResult.INTERPRET_OK, s)) "var ;" sampleVM rfl).1,
   (interpret_compile_error (fun _ => none)
     (fun s => (InterpretResult.INTERPRET_OK, s)) "var ;" sampleVM
       rfl).2.2.2⟩
